import Mathlib

/-!
Shallow embedding of `get_x_post.py` (an X/Twitter post extractor).

The program fetches a post URL via up to three network strategies and
builds a record of extracted fields.  Network and HTML-parsing
collaborators (`requests`, `BeautifulSoup`) are modelled as an
environment `Env` supplying, per call, the response of each of the three
requests the code can make together with the features the code reads
off the parsed documents.  All string manipulation done by the Python
code itself (regexes, `split`, `strip`, substring tests) is embedded
directly below.  Character classes (`\w`, `\d`, `\s`) are modelled over
their ASCII parts, which is exact for every input considered here.
-/

/-- Python `\s` whitespace class (ASCII part): space, tab, newline,
carriage return, vertical tab, form feed. -/
def pySpace (c : Char) : Bool :=
  c = ' ' || c = '\t' || c = '\n' || c = '\r' || c = '\x0b' || c = '\x0c'

/-- Python `\w` word-character class (ASCII part): letters, digits, underscore. -/
def wordChar (c : Char) : Bool :=
  c.isAlphanum || c = '_'

/-- If `p` is a prefix of `s`, strip it and return the remainder. -/
def stripPrefixQ : List Char → List Char → Option (List Char)
  | [], s => some s
  | _ :: _, [] => none
  | a :: p, b :: s => if a = b then stripPrefixQ p s else none

/-- Python `needle in haystack` substring test. -/
def listContains (needle : List Char) : List Char → Bool
  | [] => needle.isEmpty
  | s@(_ :: t) => (stripPrefixQ needle s).isSome || listContains needle t

/-- Python `s.split(sep)[0]` for a non-empty separator: everything before
the first occurrence of `sep` (the whole string when `sep` does not occur). -/
def beforeFirst (sep : List Char) : List Char → List Char
  | [] => []
  | s@(c :: t) => if (stripPrefixQ sep s).isSome then [] else c :: beforeFirst sep t

/-- Python `s.split(sep)` for a single-character separator. -/
def pySplitCh (sep : Char) : List Char → List (List Char)
  | [] => [[]]
  | c :: cs =>
    let r := pySplitCh sep cs
    if c = sep then [] :: r
    else
      match r with
      | [] => [[c]]
      | h :: t => (c :: h) :: t

/-- Python `lst[-1]` on a split result (split results are never empty). -/
def lastD (d : List Char) : List (List Char) → List Char
  | [] => d
  | [x] => x
  | _ :: x :: xs => lastD d (x :: xs)

/-- Python `lst[i]` (indexing; total with a default, in range on every
use the validated code performs). -/
def nthD (d : List Char) : List (List Char) → Nat → List Char
  | [], _ => d
  | x :: _, 0 => x
  | _ :: xs, n + 1 => nthD d xs n

/-- Python `s.strip()` over our whitespace class. -/
def pyStrip (s : String) : String :=
  ⟨((s.data.dropWhile pySpace).reverse.dropWhile pySpace).reverse⟩

/-- `re.sub(r'\s+', ' ', s)`: each maximal whitespace run becomes one space. -/
def collapseWsAux : Bool → List Char → List Char
  | _, [] => []
  | prevSpace, c :: cs =>
    if pySpace c then
      if prevSpace then collapseWsAux true cs
      else ' ' :: collapseWsAux true cs
    else c :: collapseWsAux false cs

def collapseWs (s : String) : String :=
  ⟨collapseWsAux false s.data⟩

/-- Python `s.replace('@', '')`. -/
def removeAts (s : String) : String :=
  ⟨s.data.filter (fun c => c ≠ '@')⟩

/-- One position of `re.search(r'pic\.twitter\.com/([a-zA-Z0-9]+)', s)`:
does the literal followed by at least one ASCII alphanumeric start here? -/
def picAt (s : List Char) : Bool :=
  match stripPrefixQ "pic.twitter.com/".data s with
  | some (c :: _) => c.isAlphanum
  | _ => false

/-- `re.search` for the media short-link pattern anywhere in the string. -/
def hasPicLink : List Char → Bool
  | [] => false
  | s@(_ :: t) => picAt s || hasPicLink t

/-!
Embedding of `re.match(r'(.*?)(?:\s+)?(?:—|\-)(?:\s+)?(.+?) \(@(.+?)\) (.+)$', text)`
with Python backtracking semantics: `.` excludes `'\n'`, quantifiers are
non-greedy exactly where written, `$` matches at the end or before one
final newline.
-/

/-- Match `(.+?)\) (.+)$` at `s`; `g3rev` holds the (reversed) part of
group 3 consumed so far.  Shortest extension of group 3 is tried first. -/
def matchHandle (g3rev : List Char) : List Char → Option (List Char × List Char)
  | [] => none
  | c :: t =>
    if c = '\n' then none
    else
      let g3 := c :: g3rev
      match stripPrefixQ ") ".data t with
      | some rest =>
        let g4 := rest.takeWhile (fun x => x ≠ '\n')
        let tail := rest.dropWhile (fun x => x ≠ '\n')
        if g4 ≠ [] ∧ (tail = [] ∨ tail = ['\n']) then some (g3.reverse, g4)
        else matchHandle g3 t
      | none => matchHandle g3 t

/-- Match `(.+?) \(@(.+?)\) (.+)$` at `s`; group 2 grows shortest-first. -/
def matchParen (g2rev : List Char) : List Char → Option (List Char × List Char × List Char)
  | [] => none
  | c :: t =>
    if c = '\n' then none
    else
      let g2 := c :: g2rev
      match stripPrefixQ " (@".data t with
      | some rest =>
        match matchHandle [] rest with
        | some (g3, g4) => some (g2.reverse, g3, g4)
        | none => matchParen g2 t
      | none => matchParen g2 t

/-- Match `(?:\s+)?(.+?) \(@(.+?)\) (.+)$` with the greedy optional
whitespace run tried longest-first. -/
def matchG2start : List Char → Option (List Char × List Char × List Char)
  | [] => none
  | s@(c :: t) =>
    if pySpace c then
      match matchG2start t with
      | some r => some r
      | none => matchParen [] s
    else matchParen [] s

/-- Match `(?:—|\-)(?:\s+)?(.+?) \(@(.+?)\) (.+)$` at `s`. -/
def dashAt : List Char → Option (List Char × List Char × List Char)
  | [] => none
  | c :: t => if c = '—' ∨ c = '-' then matchG2start t else none

/-- Match `(?:\s+)?(?:—|\-)(?:\s+)?(.+?) \(@(.+?)\) (.+)$` at `s`,
greedy leading whitespace tried longest-first. -/
def matchDashPart : List Char → Option (List Char × List Char × List Char)
  | [] => none
  | s@(c :: t) =>
    if pySpace c then
      match matchDashPart t with
      | some r => some r
      | none => dashAt s
    else dashAt s

/-- Body group `(.*?)` grows shortest-first from the start of the string. -/
def tweetMatchAux (bodyRev : List Char) : List Char →
    Option (List Char × List Char × List Char × List Char)
  | [] =>
    match matchDashPart [] with
    | some (g2, g3, g4) => some (bodyRev.reverse, g2, g3, g4)
    | none => none
  | s@(c :: t) =>
    match matchDashPart s with
    | some (g2, g3, g4) => some (bodyRev.reverse, g2, g3, g4)
    | none => if c = '\n' then none else tweetMatchAux (c :: bodyRev) t

/-- The whole tweet-text pattern of strategy 1, returning the four groups
(body, author, handle, date). -/
def tweetMatch (s : String) : Option (String × String × String × String) :=
  match tweetMatchAux [] s.data with
  | some (g1, g2, g3, g4) => some (⟨g1⟩, ⟨g2⟩, ⟨g3⟩, ⟨g4⟩)
  | none => none

example : tweetMatch "Hello world — Alice (@alice) Jan 1, 2024" =
    some ("Hello world", "Alice", "alice", "Jan 1, 2024") := by decide

example : tweetMatch "" = none := by decide

/-!
URL validation: `re.match(r'https?://(twitter|x)\.com/\w+/status/\d+', url)`.
`re.match` anchors at the start of the string only; after `\w+` the
literal `/` forces the maximal word run, so the match is deterministic.
-/

/-- `https?://` at the start of the string. -/
def afterScheme (s : List Char) : Option (List Char) :=
  match stripPrefixQ "https://".data s with
  | some t => some t
  | none => stripPrefixQ "http://".data s

/-- `(twitter|x)\.com/` next. -/
def afterHost (s : List Char) : Option (List Char) :=
  match stripPrefixQ "twitter.com/".data s with
  | some t => some t
  | none => stripPrefixQ "x.com/".data s

/-- `\w+/status/\d+` after the host: a non-empty word run, the literal
`/status/`, one digit (the rest of `\d+` is unconstrained by a prefix match). -/
def validAfterHost (s2 : List Char) : Bool :=
  match stripPrefixQ "/status/".data (s2.dropWhile wordChar) with
  | some (c :: _) => decide (s2.takeWhile wordChar ≠ []) && c.isDigit
  | _ => false

def validAfterScheme (s1 : List Char) : Bool :=
  match afterHost s1 with
  | none => false
  | some s2 => validAfterHost s2

/-- The whole validation regex (as a prefix match, like `re.match`). -/
def validUrlL (s : List Char) : Bool :=
  match afterScheme s with
  | none => false
  | some s1 => validAfterScheme s1

def validUrl (url : String) : Bool := validUrlL url.data

example : validUrl "https://x.com/alice/status/123456" = true := by decide
example : validUrl "https://x.com/a/status/1/extra" = true := by decide
example : validUrl "https://example.com/post/1" = false := by decide
example : validUrl "http://twitter.com/bob/status/42?s=20" = true := by decide
example : validUrl "https://x.com//status/1" = false := by decide

/-- `url.split('/')[-1].split('?')[0]`. -/
def urlTweetId (url : String) : String :=
  ⟨beforeFirst "?".data (lastD [] (pySplitCh '/' url.data))⟩

/-- `url.split('/')[3]`. -/
def urlUser (url : String) : String :=
  ⟨nthD [] (pySplitCh '/' url.data) 3⟩

example : urlTweetId "https://x.com/alice/status/123456?s=20" = "123456" := by decide
example : urlUser "https://x.com/alice/status/123456?s=20" = "alice" := by decide

/-! The record built by `get_tweet_content` (the Python result dict). -/

structure TweetRecord where
  text : String
  created_at : String
  user_name : String
  screen_name : String
  tweet_id : String
  url : String
  has_media : Option Bool
  media : Option (List String)
deriving DecidableEq, Repr

/-- The dict initialized at the start of `get_tweet_content` (lines 28-35). -/
def initRecord (url : String) : TweetRecord :=
  { text := "", created_at := "", user_name := urlUser url, screen_name := urlUser url
    tweet_id := urlTweetId url, url := url, has_media := none, media := none }

/-!
The environment: what the three network requests of one call return and
what `BeautifulSoup` reads off the fetched documents.  `none` at a
request models a raised network exception; a non-200 status skips the
strategy body exactly as in the code.
-/

/-- The JSON object of the oEmbed response (`response.json()`), reduced
to the two keys the code reads; an `Option` field is `none` when the key
is absent. -/
structure OEmbedData where
  html : Option String
  author_name : Option String

/-- The oEmbed HTTP response; `json = none` models an unparsable payload
(`response.json()` raising). -/
structure OEmbedResp where
  status : Nat
  json : Option OEmbedData

/-- One `<script type="application/ld+json">` block of the fetched page:
either a JSON object with its optional `dateCreated` / `datePublished`
keys, or anything else (non-dict JSON or a parse failure, both skipped). -/
inductive LdScript
  | obj (dateCreated datePublished : Option String)
  | other

/-- A `<time>` element with its optional `datetime` and `title` attributes. -/
structure TimeEl where
  datetime : Option String
  title : Option String

/-- What strategy 2 reads off the fetched post page via `BeautifulSoup`.
Each `Option String` is the `content` attribute of the corresponding
tag, `none` when the tag or the attribute is absent. -/
structure PageMeta where
  og_description : Option String
  og_title : Option String
  og_image : Option String
  time_datetime : Option String
  published_time : Option String
  ld_scripts : List LdScript

structure PageResp where
  status : Nat
  page : PageMeta

/-- What strategy 3 reads off the embedded-tweet page: the selected
elements' visible text / attributes (`none` when `select_one` finds
nothing), and the `src` attributes of the `.MediaCard img` elements. -/
structure EmbedPage where
  tweet_text : Option String
  fullname : Option String
  username_el : Option String
  media_imgs : List (Option String)
  time_el : Option TimeEl

structure EmbedResp where
  status : Nat
  page : EmbedPage

/-- The per-call collaborators: the three HTTP responses (in strategy
order) and `BeautifulSoup(...).get_text()` on the oEmbed HTML fragment. -/
structure Env where
  oembed : Option OEmbedResp
  page : Option PageResp
  embed : Option EmbedResp
  getText : String → String

/-- Python truthiness of `x.get(attr)`: the attribute is present and non-empty. -/
def optTruthy : Option String → Bool
  | some s => s ≠ ""
  | none => false

/-- `json.loads` loop over the ld+json scripts (lines 140-150): the first
dict carrying `dateCreated` (else `datePublished`) supplies the date. -/
def findLdDate : List LdScript → Option String
  | [] => none
  | LdScript.obj (some d) _ :: _ => some d
  | LdScript.obj none (some d) :: _ => some d
  | _ :: rest => findLdDate rest

/-- Strategy 1, lines 62-77: the tweet-text pattern match on the
fragment's visible text, with its two branches. -/
def m1parse (data : OEmbedData) (tweet_text : String) (username : String)
    (r : TweetRecord) : TweetRecord :=
  match tweetMatch tweet_text with
  | some (body, user, screen, date) =>
    if pyStrip date ≠ "" then
      { r with text := pyStrip body, user_name := pyStrip user
               screen_name := pyStrip screen, created_at := pyStrip date }
    else
      { r with text := pyStrip body, user_name := pyStrip user
               screen_name := pyStrip screen }
  | none =>
    { r with text := collapseWs tweet_text
             user_name := data.author_name.getD username }

/-- Strategy 1, lines 79-84: the media short-link scan over the raw fragment. -/
def m1media (data : OEmbedData) (r : TweetRecord) : TweetRecord :=
  if data.html.isSome ∧ hasPicLink (data.html.getD "").data then
    { r with has_media := some true }
  else r

/-- Strategy 1, the oEmbed API (lines 50-89).  Returns `some` when the
code executes `return result` (HTTP 200 and parseable JSON), `none` when
the strategy falls through to strategy 2. -/
def method1 (env : Env) (r : TweetRecord) (username : String) : Option TweetRecord :=
  match env.oembed with
  | none => none
  | some resp =>
    if resp.status = 200 then
      match resp.json with
      | none => none
      | some data =>
        some (m1media data
          (m1parse data (pyStrip (env.getText (data.html.getD ""))) username r))
    else none

/-- Strategy 2, lines 99-108: the `og:description` tag fills `text`. -/
def updDesc (p : PageMeta) (r : TweetRecord) : TweetRecord :=
  match p.og_description with
  | some d =>
    if d ≠ "" then
      if listContains " — ".data d.data then
        { r with text := pyStrip ⟨beforeFirst " — ".data d.data⟩ }
      else if listContains "pic.twitter.com/".data d.data then
        { r with text := pyStrip ⟨beforeFirst "pic.twitter.com/".data d.data⟩ }
      else { r with text := d }
    else r
  | none => r

/-- Strategy 2, lines 110-116: the `og:title` tag fills `user_name`. -/
def updTitle (p : PageMeta) (r : TweetRecord) : TweetRecord :=
  match p.og_title with
  | some t =>
    if t ≠ "" then
      if listContains " on Twitter:".data t.data then
        { r with user_name := ⟨beforeFirst " on Twitter:".data t.data⟩ }
      else if listContains " on X:".data t.data then
        { r with user_name := ⟨beforeFirst " on X:".data t.data⟩ }
      else r
    else r
  | none => r

/-- Strategy 2, lines 119-124: the `og:image` tag fills `media`. -/
def updImage (p : PageMeta) (r : TweetRecord) : TweetRecord :=
  match p.og_image with
  | some img =>
    if img ≠ "" then
      if ¬ (listContains "responsive-web".data img.data
            || listContains "profile_images".data img.data) then
        { r with media := some [img] }
      else r
    else r
  | none => r

/-- Strategy 2, lines 128-130: the `<time>` tag's `datetime` attribute. -/
def updTimeTag (p : PageMeta) (r : TweetRecord) : TweetRecord :=
  if optTruthy p.time_datetime then { r with created_at := p.time_datetime.getD "" } else r

/-- Strategy 2, lines 133-136: the published-time metadata tag. -/
def updPub (p : PageMeta) (r : TweetRecord) : TweetRecord :=
  if r.created_at = "" then
    (if optTruthy p.published_time then
      { r with created_at := p.published_time.getD "" } else r)
  else r

/-- Strategy 2, lines 139-150: the JSON-LD loop. -/
def updLd (p : PageMeta) (r : TweetRecord) : TweetRecord :=
  if r.created_at = "" then
    (match findLdDate p.ld_scripts with
     | some d => { r with created_at := d }
     | none => r)
  else r

/-- The body of strategy 2 on a parsed HTTP-200 page. -/
def m2body (p : PageMeta) (r : TweetRecord) : TweetRecord :=
  updLd p (updPub p (updTimeTag p (updImage p (updTitle p (updDesc p r)))))

/-- Strategy 2, direct page scraping (lines 92-156).  Returns the
(possibly mutated) record and whether the code executed `return result`
(`text` ended up non-empty). -/
def method2 (env : Env) (r : TweetRecord) : TweetRecord × Bool :=
  match env.page with
  | none => (r, false)
  | some resp =>
    if resp.status = 200 then
      (m2body resp.page r, (m2body resp.page r).text ≠ "")
    else (r, false)

/-- Strategy 3, lines 168-170: the `.tweet-text` element. -/
def updM3text (p : EmbedPage) (r : TweetRecord) : TweetRecord :=
  match p.tweet_text with
  | some t => { r with text := pyStrip t }
  | none => r

/-- Strategy 3, lines 173-175: the author full-name element. -/
def updM3full (p : EmbedPage) (r : TweetRecord) : TweetRecord :=
  match p.fullname with
  | some u => { r with user_name := pyStrip u }
  | none => r

/-- Strategy 3, lines 178-180: the username element. -/
def updM3screen (p : EmbedPage) (r : TweetRecord) : TweetRecord :=
  match p.username_el with
  | some u => { r with screen_name := removeAts (pyStrip u) }
  | none => r

/-- Strategy 3, lines 183-185: the `.MediaCard img` elements. -/
def updM3media (p : EmbedPage) (r : TweetRecord) : TweetRecord :=
  if p.media_imgs ≠ [] then
    { r with media := some (p.media_imgs.filterMap (fun o =>
        match o with
        | some s => if s ≠ "" then some s else none
        | none => none)) }
  else r

/-- Strategy 3, lines 188-193: the `<time>` element. -/
def updM3time (p : EmbedPage) (r : TweetRecord) : TweetRecord :=
  match p.time_el with
  | some tel =>
    if optTruthy tel.datetime then { r with created_at := tel.datetime.getD "" }
    else if optTruthy tel.title then { r with created_at := tel.title.getD "" }
    else r
  | none => r

/-- The body of strategy 3 on a parsed HTTP-200 fragment. -/
def m3body (p : EmbedPage) (r : TweetRecord) : TweetRecord :=
  updM3time p (updM3media p (updM3screen p (updM3full p (updM3text p r))))

/-- Strategy 3, the embedded tweet page (lines 158-199). -/
def method3 (env : Env) (r : TweetRecord) : TweetRecord × Bool :=
  match env.embed with
  | none => (r, false)
  | some resp =>
    if resp.status = 200 then
      (m3body resp.page r, (m3body resp.page r).text ≠ "")
    else (r, false)

/-- The placeholder of line 203. -/
def placeholderText (url : String) : String :=
  "Content couldn't be retrieved due to X/Twitter limitations. Please visit the link directly: " ++ url

/-- The pipeline after strategy 1 declined: strategies 2 and 3, then the
placeholder (lines 91-205). -/
def afterM1 (env : Env) (url : String) (r0 : TweetRecord) : TweetRecord :=
  if (method2 env r0).2 then (method2 env r0).1
  else if (method3 env (method2 env r0).1).2 then (method3 env (method2 env r0).1).1
  else if (method3 env (method2 env r0).1).1.text = "" then
    { (method3 env (method2 env r0).1).1 with text := placeholderText url }
  else (method3 env (method2 env r0).1).1

/-- `get_tweet_content` (lines 9-205): validation, the three strategies,
the placeholder.  `Except.error` models the raised `ValueError`. -/
def get_tweet_content (env : Env) (url : String) : Except String TweetRecord :=
  if validUrlL url.data then
    match method1 env (initRecord url) (urlUser url) with
    | some r => Except.ok r
    | none => Except.ok (afterM1 env url (initRecord url))
  else Except.error "Invalid X/Twitter URL format"

/-! Record finalization and the batch driver (`clean_tweet_data`, `process_url`, `main`). -/

/-- A Python value as it occurs in the result dict. -/
inductive PyVal
  | str (s : String)
  | bool (b : Bool)
  | list (l : List String)
deriving DecidableEq, Repr

/-- Python truthiness on those values. -/
def pyTruthy : PyVal → Bool
  | PyVal.str s => s ≠ ""
  | PyVal.bool b => b
  | PyVal.list l => l ≠ []

/-- The result dict as an insertion-ordered key/value list: the six keys
of the initial literal, then `has_media` / `media` when they were added. -/
def toDict (r : TweetRecord) : List (String × PyVal) :=
  [("text", PyVal.str r.text), ("created_at", PyVal.str r.created_at),
   ("user_name", PyVal.str r.user_name), ("screen_name", PyVal.str r.screen_name),
   ("tweet_id", PyVal.str r.tweet_id), ("url", PyVal.str r.url)]
  ++ (match r.has_media with | some b => [("has_media", PyVal.bool b)] | none => [])
  ++ (match r.media with | some l => [("media", PyVal.list l)] | none => [])

/-- `clean_tweet_data` (lines 210-217): keep an item iff its value is
truthy or its key is `has_media`. -/
def clean_tweet_data (d : List (String × PyVal)) : List (String × PyVal) :=
  d.filter (fun kv => pyTruthy kv.2 || kv.1 == "has_media")

/-- `process_url` (lines 220-232): a raised `ValueError` becomes `None`. -/
def process_url (env : Env) (url : String) : Option TweetRecord :=
  match get_tweet_content env url with
  | Except.ok r => some r
  | Except.error _ => none

/-- The `main` loop's record collection (lines 299-322, `json` format):
each URL in order, skipping those for which `process_url` returned
`None`, each record cleaned. -/
def collectRecords (inputs : List (String × Env)) : List (List (String × PyVal)) :=
  inputs.filterMap (fun p => (process_url p.2 p.1).map (fun r => clean_tweet_data (toDict r)))

/-- What the `json` (array) mode prints after the batch (lines 325-335). -/
inductive JsonOut
  | single (r : List (String × PyVal))
  | array (rs : List (List (String × PyVal)))
deriving DecidableEq, Repr

/-- `if all_results: dumps(all_results[0] if len(all_results) == 1 else all_results)`. -/
def jsonModeOutput : List (List (String × PyVal)) → Option JsonOut
  | [] => none
  | [r] => some (JsonOut.single r)
  | rs => some (JsonOut.array rs)

def runJsonMode (inputs : List (String × Env)) : Option JsonOut :=
  jsonModeOutput (collectRecords inputs)

/-- `main`'s exit code (lines 269-272 and normal completion): 1 when no
URLs were supplied at all, otherwise 0.  (The interrupt code 130 and the
output-file open failure are outside this model.) -/
def mainExitCode (inputs : List (String × Env)) : Nat :=
  if inputs.isEmpty then 1 else 0

/-! Spec-side URL shapes (for the refinement claims C2 and C3), phrased
from the spec's words, to be compared against the code's `validUrlL`. -/

/-- The spec's required shape as the code actually enforces it — as a
prefix: some leading part of the string is
`http(s)://(twitter|x).com/<username>/status/<digit>`, with anything at
all after the first digit. -/
def SpecPrefixShapeL (s : List Char) : Prop :=
  ∃ pre user d rest,
    (pre = "http://twitter.com/".data ∨ pre = "https://twitter.com/".data ∨
     pre = "http://x.com/".data ∨ pre = "https://x.com/".data)
    ∧ user ≠ [] ∧ (∀ c ∈ user, wordChar c = true) ∧ d.isDigit = true
    ∧ s = pre ++ user ++ "/status/".data ++ d :: rest

def SpecPrefixShape (url : String) : Prop := SpecPrefixShapeL url.data

/-- The claims' exact shape:
`http(s)://(twitter|x).com/<username>/status/<numeric-id>` optionally
followed by a query string. -/
def SpecExactShape (url : String) : Prop :=
  ∃ pre user id q,
    (pre = "http://twitter.com/" ∨ pre = "https://twitter.com/" ∨
     pre = "http://x.com/" ∨ pre = "https://x.com/")
    ∧ user.data ≠ [] ∧ (∀ c ∈ user.data, wordChar c = true)
    ∧ id.data ≠ [] ∧ (∀ c ∈ id.data, c.isDigit = true)
    ∧ (q = "" ∨ ∃ qs, q = "?" ++ qs)
    ∧ url = pre ++ user ++ "/status/" ++ id ++ q

/-! Auxiliary lemmas about the string machinery. -/

theorem stripPrefixQ_eq_some : ∀ (p s t : List Char), stripPrefixQ p s = some t ↔ s = p ++ t
  | [], s, t => by simp [stripPrefixQ]
  | _ :: _, [], t => by simp [stripPrefixQ]
  | a :: p, b :: s, t => by
    by_cases h : a = b
    · subst h
      simp [stripPrefixQ, stripPrefixQ_eq_some p s t]
    · simp only [stripPrefixQ, if_neg h, List.cons_append, List.cons.injEq]
      constructor
      · intro hc; exact Option.noConfusion hc
      · rintro ⟨h1, _⟩; exact absurd h1.symm h

theorem stripPrefixQ_append (p t : List Char) : stripPrefixQ p (p ++ t) = some t :=
  (stripPrefixQ_eq_some p (p ++ t) t).mpr rfl

theorem stripPrefixQ_ne_at : ∀ (n : Nat) (p s : List Char) (a b : Char),
    p[n]? = some a → s[n]? = some b → a ≠ b → stripPrefixQ p s = none
  | 0, p, s, a, b, hp, hs, hne => by
    cases p with
    | nil => simp at hp
    | cons x p' =>
      cases s with
      | nil => simp at hs
      | cons y s' =>
        simp at hp hs
        subst hp; subst hs
        simp [stripPrefixQ, hne]
  | n + 1, p, s, a, b, hp, hs, hne => by
    cases p with
    | nil => simp at hp
    | cons x p' =>
      cases s with
      | nil => simp at hs
      | cons y s' =>
        simp at hp hs
        by_cases h : x = y
        · simp [stripPrefixQ, h, stripPrefixQ_ne_at n p' s' a b hp hs hne]
        · simp [stripPrefixQ, h]

theorem mem_takeWhile {p : Char → Bool} : ∀ {l : List Char} {c : Char},
    c ∈ l.takeWhile p → p c = true := by
  intro l
  induction l with
  | nil => intro c hc; simp [List.takeWhile] at hc
  | cons a t ih =>
    intro c hc
    by_cases ha : p a = true
    · rw [List.takeWhile_cons, if_pos ha] at hc
      rcases List.mem_cons.mp hc with h | h
      · subst h; exact ha
      · exact ih h
    · rw [List.takeWhile_cons, if_neg ha] at hc
      simp at hc

theorem takeWhile_append_stop {p : Char → Bool} : ∀ (u : List Char) {x : Char} (t : List Char),
    (∀ c ∈ u, p c = true) → p x = false →
    (u ++ x :: t).takeWhile p = u ∧ (u ++ x :: t).dropWhile p = x :: t
  | [], x, t, _, hx => by
    simp [List.takeWhile_cons, List.dropWhile_cons, hx]
  | a :: u, x, t, hu, hx => by
    have ha : p a = true := hu a (by simp)
    have ih := takeWhile_append_stop u t (fun c hc => hu c (by simp [hc])) hx
    simp [List.takeWhile_cons, List.dropWhile_cons, ha, ih.1, ih.2]

theorem pySplitCh_no_sep {sep : Char} : ∀ (u : List Char),
    (∀ c ∈ u, c ≠ sep) → pySplitCh sep u = [u]
  | [], _ => rfl
  | c :: cs, h => by
    have hc : c ≠ sep := h c (by simp)
    have ih := pySplitCh_no_sep cs (fun x hx => h x (by simp [hx]))
    simp [pySplitCh, hc, ih]

theorem pySplitCh_append {sep : Char} : ∀ (u rest : List Char),
    (∀ c ∈ u, c ≠ sep) →
    pySplitCh sep (u ++ sep :: rest) = u :: pySplitCh sep rest
  | [], rest, _ => by simp [pySplitCh]
  | c :: u, rest, h => by
    have hc : c ≠ sep := h c (by simp)
    have ih := pySplitCh_append u rest (fun x hx => h x (by simp [hx]))
    simp [pySplitCh, hc, ih]

theorem beforeFirst_no {q : Char} : ∀ (l : List Char),
    (∀ c ∈ l, c ≠ q) → beforeFirst [q] l = l
  | [], _ => rfl
  | c :: t, h => by
    have hc : q ≠ c := fun hh => (h c (by simp)) hh.symm
    have ih := beforeFirst_no t (fun x hx => h x (by simp [hx]))
    simp [beforeFirst, stripPrefixQ, hc, ih]

theorem beforeFirst_append {q : Char} : ∀ (u rest : List Char),
    (∀ c ∈ u, c ≠ q) → beforeFirst [q] (u ++ q :: rest) = u
  | [], rest, _ => by simp [beforeFirst, stripPrefixQ]
  | c :: u, rest, h => by
    have hc : q ≠ c := fun hh => (h c (by simp)) hh.symm
    have ih := beforeFirst_append u rest (fun x hx => h x (by simp [hx]))
    simp [beforeFirst, stripPrefixQ, hc, ih]

/-! The validation regex against the spec's shape. -/

theorem afterScheme_some {s t : List Char} (h : afterScheme s = some t) :
    s = "https://".data ++ t ∨ s = "http://".data ++ t := by
  unfold afterScheme at h
  cases hh : stripPrefixQ "https://".data s with
  | some u =>
    rw [hh] at h
    injection h with h
    subst h
    exact Or.inl ((stripPrefixQ_eq_some _ _ _).mp hh)
  | none =>
    rw [hh] at h
    exact Or.inr ((stripPrefixQ_eq_some _ _ _).mp h)

theorem afterHost_some {s t : List Char} (h : afterHost s = some t) :
    s = "twitter.com/".data ++ t ∨ s = "x.com/".data ++ t := by
  unfold afterHost at h
  cases hh : stripPrefixQ "twitter.com/".data s with
  | some u =>
    rw [hh] at h
    injection h with h
    subst h
    exact Or.inl ((stripPrefixQ_eq_some _ _ _).mp hh)
  | none =>
    rw [hh] at h
    exact Or.inr ((stripPrefixQ_eq_some _ _ _).mp h)

theorem afterScheme_https (t : List Char) :
    afterScheme ("https://".data ++ t) = some t := by
  unfold afterScheme
  rw [stripPrefixQ_append]

theorem afterScheme_http (t : List Char) :
    afterScheme ("http://".data ++ t) = some t := by
  unfold afterScheme
  rw [stripPrefixQ_ne_at 4 _ _ 's' ':' (by decide)
        (by rw [List.getElem?_append_left (by decide)]; decide) (by decide)]
  exact stripPrefixQ_append _ _

theorem afterHost_twitter (t : List Char) :
    afterHost ("twitter.com/".data ++ t) = some t := by
  unfold afterHost
  rw [stripPrefixQ_append]

theorem afterHost_x (t : List Char) :
    afterHost ("x.com/".data ++ t) = some t := by
  unfold afterHost
  rw [stripPrefixQ_ne_at 0 _ _ 't' 'x' (by decide)
        (by rw [List.getElem?_append_left (by decide)]; decide) (by decide)]
  exact stripPrefixQ_append _ _

theorem validUrlL_some {s t : List Char} (h : afterScheme s = some t) :
    validUrlL s = validAfterScheme t := by
  unfold validUrlL; rw [h]

theorem validAfterScheme_some {s t : List Char} (h : afterHost s = some t) :
    validAfterScheme s = validAfterHost t := by
  unfold validAfterScheme; rw [h]

/-- After the host, a non-empty word run followed by `/status/` and a
digit makes the rest of the regex match. -/
theorem validTail {user : List Char} (d : Char) (rest : List Char)
    (hu : user ≠ []) (hw : ∀ c ∈ user, wordChar c = true) (hd : d.isDigit = true) :
    validAfterHost (user ++ "/status/".data ++ d :: rest) = true := by
  unfold validAfterHost
  have hsplit :
      user ++ "/status/".data ++ d :: rest = user ++ '/' :: ("status/".data ++ d :: rest) := by
    simp
  have hx := takeWhile_append_stop (p := wordChar) user (x := '/')
    ("status/".data ++ d :: rest) hw (by decide)
  rw [hsplit, hx.2]
  have h2 : ('/' :: ("status/".data ++ d :: rest)) = "/status/".data ++ d :: rest := by simp
  rw [h2, stripPrefixQ_append]
  have hx1 : List.takeWhile wordChar (user ++ ("/status/".data ++ d :: rest)) = user := by
    rw [show user ++ ("/status/".data ++ d :: rest) =
        user ++ '/' :: ("status/".data ++ d :: rest) from by simp]
    exact hx.1
  rw [hx1]
  show (decide (user ≠ []) && d.isDigit) = true
  simp [hu, hd]

/-- The code's URL validation accepts exactly the strings some prefix of
which has the spec's shape. -/
theorem validUrlL_iff (s : List Char) : validUrlL s = true ↔ SpecPrefixShapeL s := by
  constructor
  · intro h
    unfold validUrlL at h
    split at h
    · exact absurd h (by simp)
    next s1 h1 =>
      unfold validAfterScheme at h
      split at h
      · exact absurd h (by simp)
      next s2 h2 =>
        unfold validAfterHost at h
        split at h
        next c cs h3 =>
          simp only [Bool.and_eq_true, decide_eq_true_eq] at h
          have hs2 : s2 = s2.takeWhile wordChar ++ ("/status/".data ++ c :: cs) := by
            conv_lhs => rw [← List.takeWhile_append_dropWhile (p := wordChar) (l := s2)]
            rw [(stripPrefixQ_eq_some _ _ _).mp h3]
          rcases afterScheme_some h1 with hsch | hsch <;>
            rcases afterHost_some h2 with hhost | hhost
          · refine ⟨"https://twitter.com/".data, s2.takeWhile wordChar, c, cs,
              Or.inr (Or.inl rfl), h.1, fun x hx => mem_takeWhile hx, h.2, ?_⟩
            rw [hsch, hhost]
            conv_lhs => rw [hs2]
            rw [← List.append_assoc,
              show ("https://".data : List Char) ++ "twitter.com/".data =
                "https://twitter.com/".data from by decide]
            simp [List.append_assoc]
          · refine ⟨"https://x.com/".data, s2.takeWhile wordChar, c, cs,
              Or.inr (Or.inr (Or.inr rfl)), h.1, fun x hx => mem_takeWhile hx, h.2, ?_⟩
            rw [hsch, hhost]
            conv_lhs => rw [hs2]
            rw [← List.append_assoc,
              show ("https://".data : List Char) ++ "x.com/".data =
                "https://x.com/".data from by decide]
            simp [List.append_assoc]
          · refine ⟨"http://twitter.com/".data, s2.takeWhile wordChar, c, cs,
              Or.inl rfl, h.1, fun x hx => mem_takeWhile hx, h.2, ?_⟩
            rw [hsch, hhost]
            conv_lhs => rw [hs2]
            rw [← List.append_assoc,
              show ("http://".data : List Char) ++ "twitter.com/".data =
                "http://twitter.com/".data from by decide]
            simp [List.append_assoc]
          · refine ⟨"http://x.com/".data, s2.takeWhile wordChar, c, cs,
              Or.inr (Or.inr (Or.inl rfl)), h.1, fun x hx => mem_takeWhile hx, h.2, ?_⟩
            rw [hsch, hhost]
            conv_lhs => rw [hs2]
            rw [← List.append_assoc,
              show ("http://".data : List Char) ++ "x.com/".data =
                "http://x.com/".data from by decide]
            simp [List.append_assoc]
        next => exact absurd h (by simp)
  · rintro ⟨pre, user, d, rest, hpre, hu, hw, hd, hs⟩
    subst hs
    rcases hpre with h | h | h | h <;> subst h
    · have e : "http://twitter.com/".data ++ user ++ "/status/".data ++ d :: rest =
          "http://".data ++ ("twitter.com/".data ++ (user ++ "/status/".data ++ d :: rest)) := by
        simp
      rw [e, validUrlL_some (afterScheme_http _), validAfterScheme_some (afterHost_twitter _)]
      exact validTail d rest hu hw hd
    · have e : "https://twitter.com/".data ++ user ++ "/status/".data ++ d :: rest =
          "https://".data ++ ("twitter.com/".data ++ (user ++ "/status/".data ++ d :: rest)) := by
        simp
      rw [e, validUrlL_some (afterScheme_https _), validAfterScheme_some (afterHost_twitter _)]
      exact validTail d rest hu hw hd
    · have e : "http://x.com/".data ++ user ++ "/status/".data ++ d :: rest =
          "http://".data ++ ("x.com/".data ++ (user ++ "/status/".data ++ d :: rest)) := by
        simp
      rw [e, validUrlL_some (afterScheme_http _), validAfterScheme_some (afterHost_x _)]
      exact validTail d rest hu hw hd
    · have e : "https://x.com/".data ++ user ++ "/status/".data ++ d :: rest =
          "https://".data ++ ("x.com/".data ++ (user ++ "/status/".data ++ d :: rest)) := by
        simp
      rw [e, validUrlL_some (afterScheme_https _), validAfterScheme_some (afterHost_x _)]
      exact validTail d rest hu hw hd

theorem string_data_append (a b : String) : (a ++ b).data = a.data ++ b.data := rfl

theorem pySplitCh_cons_sep {sep : Char} (rest : List Char) :
    pySplitCh sep (sep :: rest) = [] :: pySplitCh sep rest := by
  simp [pySplitCh]

/-- `url.split('/')` on a URL of the full shape: the scheme segment, an
empty segment, the host, the username, `status`, and the last segment. -/
theorem split_full (seg1 seg3 user Z : List Char)
    (h1 : ∀ c ∈ seg1, c ≠ '/') (h3 : ∀ c ∈ seg3, c ≠ '/')
    (hu : ∀ c ∈ user, c ≠ '/') (hz : ∀ c ∈ Z, c ≠ '/') :
    pySplitCh '/' (seg1 ++ '/' :: '/' ::
        (seg3 ++ '/' :: (user ++ '/' :: ("status".data ++ '/' :: Z)))) =
      [seg1, [], seg3, user, "status".data, Z] := by
  rw [pySplitCh_append seg1 _ h1, pySplitCh_cons_sep,
      pySplitCh_append seg3 _ h3, pySplitCh_append user _ hu,
      pySplitCh_append "status".data _ (by decide), pySplitCh_no_sep Z hz]

/-- The derivation of `username` and `tweet_id` from a full-shape URL
whose query part (if any) contains no slash. -/
theorem c3_core (url pre user id qp : String) (seg1 seg3 : List Char)
    (hpre : pre.data = seg1 ++ '/' :: '/' :: (seg3 ++ ['/']))
    (h1 : ∀ c ∈ seg1, c ≠ '/') (h3 : ∀ c ∈ seg3, c ≠ '/')
    (hw : ∀ c ∈ user.data, wordChar c = true)
    (hidd : ∀ c ∈ id.data, c.isDigit = true)
    (hq : qp = "" ∨ ∃ qs, qp = "?" ++ qs ∧ (∀ c ∈ qs.data, c ≠ '/'))
    (hurl : url = pre ++ user ++ "/status/" ++ id ++ qp) :
    urlUser url = user ∧ urlTweetId url = id := by
  have hd : url.data = pre.data ++ (user.data ++ ("/status/".data ++ (id.data ++ qp.data))) := by
    rw [hurl]; simp [string_data_append, List.append_assoc]
  have hz : ∀ c ∈ id.data ++ qp.data, c ≠ '/' := by
    intro c hc
    rcases List.mem_append.mp hc with h | h
    · intro he; have hdig := hidd c h; rw [he] at hdig; exact absurd hdig (by decide)
    · rcases hq with hq | ⟨qs, hq, hqs⟩
      · subst hq; simp at h
      · subst hq
        rw [string_data_append] at h
        rcases List.mem_append.mp h with h | h
        · rw [show ("?".data : List Char) = ['?'] from rfl] at h
          rcases List.mem_singleton.mp h with rfl
          decide
        · exact hqs c h
  have hw' : ∀ c ∈ user.data, c ≠ '/' := fun c hc he => by
    have hwc := hw c hc; rw [he] at hwc; exact absurd hwc (by decide)
  have e2 : url.data = seg1 ++ '/' :: '/' ::
      (seg3 ++ '/' :: (user.data ++ '/' :: ("status".data ++ '/' :: (id.data ++ qp.data)))) := by
    rw [hd, hpre]
    simp [List.append_assoc, List.cons_append, List.singleton_append,
      show ("/status/".data : List Char) = '/' :: ("status".data ++ ['/']) from rfl]
  have hsplit : pySplitCh '/' url.data =
      [seg1, [], seg3, user.data, "status".data, id.data ++ qp.data] := by
    rw [e2]; exact split_full seg1 seg3 user.data (id.data ++ qp.data) h1 h3 hw' hz
  have hidq : ∀ c ∈ id.data, c ≠ '?' := fun c hc he => by
    have hdig := hidd c hc; rw [he] at hdig; exact absurd hdig (by decide)
  constructor
  · unfold urlUser
    rw [hsplit]
    rfl
  · unfold urlTweetId
    rw [hsplit]
    show String.mk (beforeFirst "?".data (id.data ++ qp.data)) = id
    rw [show ("?".data : List Char) = ['?'] from rfl]
    rcases hq with hq | ⟨qs, hq, _⟩
    · subst hq
      rw [show (("" : String).data : List Char) = [] from rfl, List.append_nil,
        beforeFirst_no _ hidq]
    · subst hq
      rw [show (("?" ++ qs).data : List Char) = '?' :: qs.data from rfl,
        beforeFirst_append _ _ hidq]

/-! Characterizations of the three strategies by the shape of their
HTTP responses. -/

theorem method1_none_of_noresp (env : Env) (r0 : TweetRecord) (u : String)
    (hoe : env.oembed = none) : method1 env r0 u = none := by
  unfold method1
  rw [hoe]

theorem method1_none_of_status (env : Env) (r0 : TweetRecord) (u : String)
    (resp : OEmbedResp) (hoe : env.oembed = some resp) (h : resp.status ≠ 200) :
    method1 env r0 u = none := by
  unfold method1
  split
  · rfl
  next resp2 heq =>
    rw [hoe] at heq
    injection heq with heq
    subst heq
    rw [if_neg h]

theorem method1_none_of_json (env : Env) (r0 : TweetRecord) (u : String)
    (resp : OEmbedResp) (hoe : env.oembed = some resp) (hj : resp.json = none) :
    method1 env r0 u = none := by
  unfold method1
  split
  · rfl
  next resp2 heq =>
    rw [hoe] at heq
    injection heq with heq
    subst heq
    by_cases h200 : resp.status = 200
    · rw [if_pos h200]
      split
      · rfl
      next data heq2 => rw [hj] at heq2; exact Option.noConfusion heq2
    · rw [if_neg h200]

theorem method1_eq_some (env : Env) (r0 : TweetRecord) (u : String)
    (resp : OEmbedResp) (data : OEmbedData) (hoe : env.oembed = some resp)
    (h200 : resp.status = 200) (hjson : resp.json = some data) :
    method1 env r0 u =
      some (m1media data (m1parse data (pyStrip (env.getText (data.html.getD ""))) u r0)) := by
  unfold method1
  split
  next heq => rw [hoe] at heq; exact Option.noConfusion heq
  next resp2 heq =>
    rw [hoe] at heq
    injection heq with heq
    subst heq
    rw [if_pos h200]
    split
    next heq2 => rw [hjson] at heq2; exact Option.noConfusion heq2
    next data2 heq2 =>
      rw [hjson] at heq2
      injection heq2 with heq2
      subst heq2
      rfl

theorem method2_eq_noresp (env : Env) (r : TweetRecord) (hp : env.page = none) :
    method2 env r = (r, false) := by
  unfold method2
  rw [hp]

theorem method2_eq_status (env : Env) (r : TweetRecord) (resp : PageResp)
    (hp : env.page = some resp) (h : resp.status ≠ 200) :
    method2 env r = (r, false) := by
  unfold method2
  split
  · rfl
  next resp2 heq =>
    rw [hp] at heq
    injection heq with heq
    subst heq
    rw [if_neg h]

theorem method2_eq_200 (env : Env) (r : TweetRecord) (resp : PageResp)
    (hp : env.page = some resp) (h200 : resp.status = 200) :
    method2 env r = (m2body resp.page r, decide ((m2body resp.page r).text ≠ "")) := by
  unfold method2
  split
  next heq => rw [hp] at heq; exact Option.noConfusion heq
  next resp2 heq =>
    rw [hp] at heq
    injection heq with heq
    subst heq
    rw [if_pos h200]

theorem method3_eq_noresp (env : Env) (r : TweetRecord) (hp : env.embed = none) :
    method3 env r = (r, false) := by
  unfold method3
  rw [hp]

theorem method3_eq_status (env : Env) (r : TweetRecord) (resp : EmbedResp)
    (hp : env.embed = some resp) (h : resp.status ≠ 200) :
    method3 env r = (r, false) := by
  unfold method3
  split
  · rfl
  next resp2 heq =>
    rw [hp] at heq
    injection heq with heq
    subst heq
    rw [if_neg h]

theorem method3_eq_200 (env : Env) (r : TweetRecord) (resp : EmbedResp)
    (hp : env.embed = some resp) (h200 : resp.status = 200) :
    method3 env r = (m3body resp.page r, decide ((m3body resp.page r).text ≠ "")) := by
  unfold method3
  split
  next heq => rw [hp] at heq; exact Option.noConfusion heq
  next resp2 heq =>
    rw [hp] at heq
    injection heq with heq
    subst heq
    rw [if_pos h200]

/-! Field-preservation lemmas for the strategy sub-updates. -/

theorem updDesc_keeps (p : PageMeta) (r : TweetRecord) :
    (updDesc p r).has_media = r.has_media ∧ (updDesc p r).user_name = r.user_name := by
  unfold updDesc
  split
  · split_ifs <;> exact ⟨rfl, rfl⟩
  · exact ⟨rfl, rfl⟩

theorem updTitle_keeps (p : PageMeta) (r : TweetRecord) :
    (updTitle p r).has_media = r.has_media ∧ (updTitle p r).text = r.text := by
  unfold updTitle
  split
  · split_ifs <;> exact ⟨rfl, rfl⟩
  · exact ⟨rfl, rfl⟩

theorem updImage_keeps (p : PageMeta) (r : TweetRecord) :
    (updImage p r).has_media = r.has_media ∧ (updImage p r).text = r.text ∧
    (updImage p r).user_name = r.user_name := by
  unfold updImage
  split
  · split_ifs <;> exact ⟨rfl, rfl, rfl⟩
  · exact ⟨rfl, rfl, rfl⟩

theorem updTimeTag_keeps (p : PageMeta) (r : TweetRecord) :
    (updTimeTag p r).has_media = r.has_media ∧ (updTimeTag p r).text = r.text ∧
    (updTimeTag p r).user_name = r.user_name := by
  unfold updTimeTag
  split_ifs <;> exact ⟨rfl, rfl, rfl⟩

theorem updPub_keeps (p : PageMeta) (r : TweetRecord) :
    (updPub p r).has_media = r.has_media ∧ (updPub p r).text = r.text ∧
    (updPub p r).user_name = r.user_name := by
  unfold updPub
  split_ifs <;> exact ⟨rfl, rfl, rfl⟩

theorem updLd_keeps (p : PageMeta) (r : TweetRecord) :
    (updLd p r).has_media = r.has_media ∧ (updLd p r).text = r.text ∧
    (updLd p r).user_name = r.user_name := by
  unfold updLd
  split_ifs
  · split <;> exact ⟨rfl, rfl, rfl⟩
  · exact ⟨rfl, rfl, rfl⟩

theorem m2body_has_media (p : PageMeta) (r : TweetRecord) :
    (m2body p r).has_media = r.has_media := by
  unfold m2body
  rw [(updLd_keeps _ _).1, (updPub_keeps _ _).1, (updTimeTag_keeps _ _).1,
    (updImage_keeps _ _).1, (updTitle_keeps _ _).1, (updDesc_keeps _ _).1]

/-- The text of strategy 2's record is decided by the description update
alone; the later updates do not touch it. -/
theorem m2body_text (p : PageMeta) (r : TweetRecord) :
    (m2body p r).text = (updDesc p r).text := by
  unfold m2body
  rw [(updLd_keeps _ _).2.1, (updPub_keeps _ _).2.1, (updTimeTag_keeps _ _).2.1,
    (updImage_keeps _ _).2.1, (updTitle_keeps _ _).2]

theorem method2_has_media (env : Env) (r : TweetRecord) :
    (method2 env r).1.has_media = r.has_media := by
  unfold method2
  split
  · rfl
  · split_ifs
    · exact m2body_has_media _ _
    · rfl

theorem updM3text_hm (p : EmbedPage) (r : TweetRecord) :
    (updM3text p r).has_media = r.has_media := by
  unfold updM3text
  cases p.tweet_text <;> rfl

theorem updM3full_hm (p : EmbedPage) (r : TweetRecord) :
    (updM3full p r).has_media = r.has_media := by
  unfold updM3full
  cases p.fullname <;> rfl

theorem updM3screen_hm (p : EmbedPage) (r : TweetRecord) :
    (updM3screen p r).has_media = r.has_media := by
  unfold updM3screen
  cases p.username_el <;> rfl

theorem updM3media_hm (p : EmbedPage) (r : TweetRecord) :
    (updM3media p r).has_media = r.has_media := by
  unfold updM3media
  split_ifs <;> rfl

theorem updM3time_hm (p : EmbedPage) (r : TweetRecord) :
    (updM3time p r).has_media = r.has_media := by
  unfold updM3time
  split
  · split_ifs <;> rfl
  · rfl

theorem m3body_has_media (p : EmbedPage) (r : TweetRecord) :
    (m3body p r).has_media = r.has_media := by
  unfold m3body
  rw [updM3time_hm, updM3media_hm, updM3screen_hm, updM3full_hm, updM3text_hm]

theorem method3_has_media (env : Env) (r : TweetRecord) :
    (method3 env r).1.has_media = r.has_media := by
  unfold method3
  split
  · rfl
  · split_ifs
    · exact m3body_has_media _ _
    · rfl

theorem m1parse_hm (data : OEmbedData) (t u : String) (r : TweetRecord) :
    (m1parse data t u r).has_media = r.has_media := by
  unfold m1parse
  split
  · split_ifs <;> rfl
  · rfl

theorem method1_hm (env : Env) (r0 : TweetRecord) (u : String) (r : TweetRecord)
    (h : method1 env r0 u = some r) :
    r.has_media = some true ∨ r.has_media = r0.has_media := by
  unfold method1 at h
  split at h
  · exact Option.noConfusion h
  · split at h
    · split at h
      · exact Option.noConfusion h
      · injection h with h
        subst h
        unfold m1media
        split_ifs
        · exact Or.inl rfl
        · rw [m1parse_hm]; exact Or.inr rfl
    · exact Option.noConfusion h

theorem afterM1_has_media (env : Env) (url : String) (r0 : TweetRecord) :
    (afterM1 env url r0).has_media = r0.has_media := by
  unfold afterM1
  split_ifs
  · exact method2_has_media _ _
  · rw [method3_has_media, method2_has_media]
  · show (method3 env (method2 env r0).1).1.has_media = r0.has_media
    rw [method3_has_media, method2_has_media]
  · rw [method3_has_media, method2_has_media]

/-- Any record produced by `get_tweet_content` has `has_media` either
absent or `True`. -/
theorem gtc_has_media (env : Env) (url : String) (r : TweetRecord)
    (h : get_tweet_content env url = Except.ok r) :
    r.has_media = none ∨ r.has_media = some true := by
  unfold get_tweet_content at h
  by_cases hv : validUrlL url.data = true
  · rw [if_pos hv] at h
    cases hm : method1 env (initRecord url) (urlUser url) with
    | some r2 =>
      rw [hm] at h
      injection h with h
      subst h
      rcases method1_hm env _ _ _ hm with h1 | h1
      · exact Or.inr h1
      · exact Or.inl h1
    | none =>
      rw [hm] at h
      injection h with h
      subst h
      rw [afterM1_has_media]
      exact Or.inl rfl
  · rw [if_neg hv] at h
    exact Except.noConfusion h

/-! Concrete environments used by witnesses and counterexamples. -/

/-- All three requests fail with a network error. -/
def envNone : Env := { oembed := none, page := none, embed := none, getText := fun _ => "" }

/-- The oEmbed endpoint answers 200 with a JSON whose `html` fragment
has empty visible text, while the post page itself would supply a
description — the configuration on which claim C1 fails. -/
def envC1cex : Env :=
  { oembed := some { status := 200, json := some { html := some "", author_name := none } }
    page := some { status := 200
                   page := { og_description := some "From page", og_title := none
                             og_image := none, time_datetime := none
                             published_time := none, ld_scripts := [] } }
    embed := none
    getText := fun _ => "" }

/-- An oEmbed response with a proper fragment. -/
def envC1w : Env :=
  { oembed := some { status := 200
                     json := some { html := some "<blockquote>hi</blockquote>"
                                    author_name := some "Alice" } }
    page := none, embed := none
    getText := fun _ => "hi" }

/-- C1, claim theorem (amended).  Strategy 1 makes the pipeline return
immediately exactly when the oEmbed request yields an HTTP 200 response
with parseable JSON — regardless of whether the extracted `text` is
empty; the pipeline proceeds to strategy 2 precisely on a network error,
a non-200 response, or an unparsable payload, never because the parsed
fragment's text is empty. -/
theorem c1_strategy1_short_circuit (env : Env) (url : String)
    (hv : validUrlL url.data = true) :
    (∀ resp data, env.oembed = some resp → resp.status = 200 → resp.json = some data →
      ∃ r, method1 env (initRecord url) (urlUser url) = some r ∧
        get_tweet_content env url = Except.ok r) ∧
    (method1 env (initRecord url) (urlUser url) = none →
      get_tweet_content env url = Except.ok (afterM1 env url (initRecord url))) ∧
    (env.oembed = none → method1 env (initRecord url) (urlUser url) = none) ∧
    (∀ resp, env.oembed = some resp → (resp.status ≠ 200 ∨ resp.json = none) →
      method1 env (initRecord url) (urlUser url) = none) := by
  refine ⟨?_, ?_, ?_, ?_⟩
  · intro resp data hoe h200 hjson
    refine ⟨_, method1_eq_some env _ _ resp data hoe h200 hjson, ?_⟩
    unfold get_tweet_content
    rw [if_pos hv, method1_eq_some env _ _ resp data hoe h200 hjson]
  · intro hm
    unfold get_tweet_content
    rw [if_pos hv, hm]
  · intro hoe
    exact method1_none_of_noresp _ _ _ hoe
  · intro resp hoe hbad
    rcases hbad with hbad | hbad
    · exact method1_none_of_status _ _ _ resp hoe hbad
    · exact method1_none_of_json _ _ _ resp hoe hbad

/-- C1, witness: on a 200 + JSON response strategy 1 short-circuits. -/
theorem c1_strategy1_witness :
    get_tweet_content envC1w "https://x.com/bob/status/7" =
      Except.ok { text := "hi", created_at := "", user_name := "Alice",
                  screen_name := "bob", tweet_id := "7",
                  url := "https://x.com/bob/status/7",
                  has_media := none, media := none } := by
  obtain ⟨r, hr, hg⟩ :=
    (c1_strategy1_short_circuit envC1w "https://x.com/bob/status/7" (by decide)).1
      { status := 200
        json := some { html := some "<blockquote>hi</blockquote>", author_name := some "Alice" } }
      { html := some "<blockquote>hi</blockquote>", author_name := some "Alice" } rfl rfl rfl
  rw [hg]
  rw [show r = { text := "hi", created_at := "", user_name := "Alice",
                 screen_name := "bob", tweet_id := "7",
                 url := "https://x.com/bob/status/7",
                 has_media := none, media := none } from by
    have := hr.symm.trans (rfl :
      method1 envC1w (initRecord "https://x.com/bob/status/7")
        (urlUser "https://x.com/bob/status/7") =
      some { text := "hi", created_at := "", user_name := "Alice",
             screen_name := "bob", tweet_id := "7",
             url := "https://x.com/bob/status/7",
             has_media := none, media := none })
    exact Option.some.inj this]

/-- C1, counterexample to the claim as stated: strategy 1 gets an HTTP
200 response whose fragment has empty visible text; the claim says the
pipeline must then proceed to strategy 2 (which here would fill `text`
with `"From page"`), but the code returns immediately with an empty
`text`. -/
theorem c1_strategy1_counterexample :
    get_tweet_content envC1cex "https://x.com/alice/status/10" =
      Except.ok { text := "", created_at := "", user_name := "alice",
                  screen_name := "alice", tweet_id := "10",
                  url := "https://x.com/alice/status/10",
                  has_media := none, media := none } ∧
    (method2 envC1cex (initRecord "https://x.com/alice/status/10")).2 = true ∧
    (method2 envC1cex (initRecord "https://x.com/alice/status/10")).1.text = "From page" :=
  ⟨rfl, rfl, rfl⟩

/-- C4, claim theorem (amended).  When every strategy fails outright —
a network error, a non-200 response, or (for strategy 1) an unparsable
payload — `get_tweet_content` does not raise and returns the
URL-initialized record with `text` set to the fixed placeholder sentence
that embeds the original URL; all other fields keep their URL-derived
defaults. -/
theorem c4_placeholder (env : Env) (url : String)
    (hv : validUrlL url.data = true)
    (h1 : ∀ resp data, env.oembed = some resp → resp.json = some data → resp.status ≠ 200)
    (h2 : ∀ resp, env.page = some resp → resp.status ≠ 200)
    (h3 : ∀ resp, env.embed = some resp → resp.status ≠ 200) :
    get_tweet_content env url =
      Except.ok { initRecord url with text := placeholderText url } := by
  have hm1 : method1 env (initRecord url) (urlUser url) = none := by
    cases hoe : env.oembed with
    | none => exact method1_none_of_noresp _ _ _ hoe
    | some resp =>
      by_cases h200 : resp.status = 200
      · cases hj : resp.json with
        | none => exact method1_none_of_json _ _ _ resp hoe hj
        | some data => exact absurd h200 (h1 resp data hoe hj)
      · exact method1_none_of_status _ _ _ resp hoe h200
  have hm2 : ∀ r, method2 env r = (r, false) := by
    intro r
    cases hp : env.page with
    | none => exact method2_eq_noresp _ _ hp
    | some resp => exact method2_eq_status _ _ resp hp (h2 resp hp)
  have hm3 : ∀ r, method3 env r = (r, false) := by
    intro r
    cases hp : env.embed with
    | none => exact method3_eq_noresp _ _ hp
    | some resp => exact method3_eq_status _ _ resp hp (h3 resp hp)
  unfold get_tweet_content
  rw [if_pos hv, hm1]
  unfold afterM1
  rw [hm2, hm3]
  simp [initRecord]

/-- C4, witness: all three requests fail with a network error. -/
theorem c4_placeholder_witness :
    get_tweet_content envNone "https://x.com/bob/status/2" =
      Except.ok { initRecord "https://x.com/bob/status/2" with
                  text := placeholderText "https://x.com/bob/status/2" } :=
  c4_placeholder envNone "https://x.com/bob/status/2" (by decide)
    (fun _ _ h => nomatch h) (fun _ h => nomatch h) (fun _ h => nomatch h)

/-- Strategies 1 and 3 fail, strategy 2 gets a 200 page with an
`og:title` but no description — the configuration on which claim C4's
"other fields keep their URL-derived defaults" fails. -/
def envC4cex : Env :=
  { oembed := none
    page := some { status := 200
                   page := { og_description := none
                             og_title := some "Alice on X: hi"
                             og_image := none, time_datetime := none
                             published_time := none, ld_scripts := [] } }
    embed := none
    getText := fun _ => "" }

/-- C4, counterexample to the claim as stated: all three strategies
leave `text` empty (strategy 2 finds a title but no description), so the
placeholder is used — but `user_name` has been overwritten to `"Alice"`
and is no longer the URL-derived default `"bob"`. -/
theorem c4_placeholder_counterexample :
    get_tweet_content envC4cex "https://x.com/bob/status/1" =
      Except.ok { text := placeholderText "https://x.com/bob/status/1", created_at := "",
                  user_name := "Alice", screen_name := "bob", tweet_id := "1",
                  url := "https://x.com/bob/status/1", has_media := none, media := none } ∧
    urlUser "https://x.com/bob/status/1" = "bob" ∧ "Alice" ≠ "bob" :=
  ⟨rfl, rfl, by decide⟩

/-- C2, claim theorem (amended).  `get_tweet_content` raises exactly on
the strings no *prefix* of which has the shape
`http(s)://(twitter|x).com/<username>/status/<digit>`; anything after
the first digit of the id — more digits, a query string, but also extra
path segments or non-digit trailing characters — is accepted. -/
theorem c2_invalid_url_iff (env : Env) (url : String) :
    (∃ e, get_tweet_content env url = Except.error e) ↔ ¬ SpecPrefixShape url := by
  unfold SpecPrefixShape
  rw [← validUrlL_iff]
  constructor
  · rintro ⟨e, he⟩ hv
    unfold get_tweet_content at he
    rw [if_pos hv] at he
    cases hm : method1 env (initRecord url) (urlUser url) with
    | some r => rw [hm] at he; exact Except.noConfusion he
    | none => rw [hm] at he; exact Except.noConfusion he
  · intro hv
    refine ⟨"Invalid X/Twitter URL format", ?_⟩
    unfold get_tweet_content
    rw [if_neg hv]

/-- C2, witness: the malformed URL of the spec's own example is rejected,
hence (by the claim theorem) it has no valid prefix. -/
theorem c2_invalid_url_witness : ¬ SpecPrefixShape "https://example.com/post/1" :=
  (c2_invalid_url_iff envNone "https://example.com/post/1").mp
    ⟨"Invalid X/Twitter URL format", by rfl⟩

/-- C2, counterexample to the claim as stated: the URL
`https://x.com/a/status/1x` has a non-digit trailing character after the
numeric id, so it is outside the claimed exact shape, yet
`get_tweet_content` does not raise on it — it returns a record. -/
theorem c2_invalid_url_counterexample :
    ¬ SpecExactShape "https://x.com/a/status/1x" ∧
    get_tweet_content envNone "https://x.com/a/status/1x" =
      Except.ok { text := placeholderText "https://x.com/a/status/1x", created_at := "",
                  user_name := "a", screen_name := "a", tweet_id := "1x",
                  url := "https://x.com/a/status/1x", has_media := none, media := none } := by
  constructor
  · rintro ⟨pre, user, id, q, hpre, hu, hw, hid, hidd, hq, heq⟩
    have hdd : "https://x.com/a/status/1x".data =
        pre.data ++ (user.data ++ ("/status/".data ++ (id.data ++ q.data))) := by
      rw [heq]; simp [string_data_append, List.append_assoc]
    rcases hpre with h | h | h | h <;> subst h
    · have h4 : ("https://x.com/a/status/1x".data)[4]? = some 's' := by decide
      rw [hdd, List.getElem?_append_left (by decide)] at h4
      exact absurd h4 (by decide)
    · have h8 : ("https://x.com/a/status/1x".data)[8]? = some 'x' := by decide
      rw [hdd, List.getElem?_append_left (by decide)] at h8
      exact absurd h8 (by decide)
    · have h4 : ("https://x.com/a/status/1x".data)[4]? = some 's' := by decide
      rw [hdd, List.getElem?_append_left (by decide)] at h4
      exact absurd h4 (by decide)
    · rw [show ("https://x.com/a/status/1x".data : List Char) =
          "https://x.com/".data ++ "a/status/1x".data from rfl] at hdd
      have h2 := List.append_cancel_left hdd
      cases hud : user.data with
      | nil => exact hu hud
      | cons u0 us =>
        rw [hud, List.cons_append,
          show ("a/status/1x".data : List Char) = 'a' :: "/status/1x".data from rfl] at h2
        injection h2 with h0 h2
        cases us with
        | cons u1 us' =>
          rw [List.cons_append,
            show ("/status/1x".data : List Char) = '/' :: "status/1x".data from rfl] at h2
          injection h2 with hslash _
          have hwu := hw u1 (by rw [hud]; simp)
          rw [← hslash] at hwu
          exact absurd hwu (by decide)
        | nil =>
          rw [List.nil_append,
            show ("/status/1x".data : List Char) = "/status/".data ++ "1x".data from rfl] at h2
          have h5 := List.append_cancel_left h2
          cases hcid : id.data with
          | nil => exact hid hcid
          | cons i0 is =>
            rw [hcid, List.cons_append,
              show ("1x".data : List Char) = '1' :: "x".data from rfl] at h5
            injection h5 with h6 h7
            cases is with
            | cons i1 is' =>
              rw [List.cons_append,
                show ("x".data : List Char) = 'x' :: ([] : List Char) from rfl] at h7
              injection h7 with h8 _
              have hdi := hidd i1 (by rw [hcid]; simp)
              rw [← h8] at hdi
              exact absurd hdi (by decide)
            | nil =>
              rw [List.nil_append] at h7
              rcases hq with hq | ⟨qs, hq⟩
              · subst hq; exact absurd h7 (by decide)
              · subst hq
                rw [string_data_append,
                  show ("?".data : List Char) ++ qs.data = '?' :: qs.data from rfl,
                  show ("x".data : List Char) = 'x' :: ([] : List Char) from rfl] at h7
                injection h7 with h9 _
                exact absurd h9 (by decide)
  · rfl

/-- C3, claim theorem (amended).  For a URL of the exact shape whose
optional query string contains no `/`, the freshly initialized record
has `tweet_id` the numeric segment, `user_name` and `screen_name` the
username segment, and `url` the unmodified input — and the URL passes
validation. -/
theorem c3_init_fields (url pre user id qp : String)
    (hpre : pre = "http://twitter.com/" ∨ pre = "https://twitter.com/" ∨
            pre = "http://x.com/" ∨ pre = "https://x.com/")
    (hu : user.data ≠ []) (hw : ∀ c ∈ user.data, wordChar c = true)
    (hid : id.data ≠ []) (hidd : ∀ c ∈ id.data, c.isDigit = true)
    (hq : qp = "" ∨ ∃ qs, qp = "?" ++ qs ∧ (∀ c ∈ qs.data, c ≠ '/'))
    (hurl : url = pre ++ user ++ "/status/" ++ id ++ qp) :
    validUrl url = true ∧
    initRecord url = { text := "", created_at := "", user_name := user,
                       screen_name := user, tweet_id := id, url := url,
                       has_media := none, media := none } := by
  have hcore : urlUser url = user ∧ urlTweetId url = id := by
    rcases hpre with h | h | h | h <;> subst h
    · exact c3_core url _ user id qp "http:".data "twitter.com".data rfl
        (by decide) (by decide) hw hidd hq hurl
    · exact c3_core url _ user id qp "https:".data "twitter.com".data rfl
        (by decide) (by decide) hw hidd hq hurl
    · exact c3_core url _ user id qp "http:".data "x.com".data rfl
        (by decide) (by decide) hw hidd hq hurl
    · exact c3_core url _ user id qp "https:".data "x.com".data rfl
        (by decide) (by decide) hw hidd hq hurl
  have hv : validUrl url = true := by
    unfold validUrl
    apply (validUrlL_iff _).mpr
    cases hcid : id.data with
    | nil => exact absurd hcid hid
    | cons d ds =>
      have hdd : d.isDigit = true := hidd d (by rw [hcid]; simp)
      have hdata : url.data =
          pre.data ++ (user.data ++ ("/status/".data ++ (id.data ++ qp.data))) := by
        rw [hurl]; simp [string_data_append, List.append_assoc]
      refine ⟨pre.data, user.data, d, ds ++ qp.data, ?_, hu, hw, hdd, ?_⟩
      · rcases hpre with h | h | h | h <;> subst h
        · exact Or.inl rfl
        · exact Or.inr (Or.inl rfl)
        · exact Or.inr (Or.inr (Or.inl rfl))
        · exact Or.inr (Or.inr (Or.inr rfl))
      · rw [hdata, hcid]; simp [List.append_assoc]
  refine ⟨hv, ?_⟩
  unfold initRecord
  rw [hcore.1, hcore.2]

/-- C3, witness: a well-formed URL with a slash-free query string. -/
theorem c3_init_fields_witness :
    validUrl "https://x.com/alice/status/123456?s=20" = true ∧
    initRecord "https://x.com/alice/status/123456?s=20" =
      { text := "", created_at := "", user_name := "alice", screen_name := "alice",
        tweet_id := "123456", url := "https://x.com/alice/status/123456?s=20",
        has_media := none, media := none } :=
  c3_init_fields _ "https://x.com/" "alice" "123456" "?s=20"
    (Or.inr (Or.inr (Or.inr rfl))) (by decide) (by decide) (by decide) (by decide)
    (Or.inr ⟨"s=20", rfl, by decide⟩) rfl

/-- C3, counterexample to the claim as stated: the URL
`https://x.com/alice/status/123?next=/home` matches the required shape
(username `alice`, numeric id `123`, query string `next=/home`), but the
initialized record's `tweet_id` is `"home"`, not the numeric segment
`"123"` — `url.split('/')[-1]` picks up the tail of the query string. -/
theorem c3_init_fields_counterexample :
    SpecExactShape "https://x.com/alice/status/123?next=/home" ∧
    (initRecord "https://x.com/alice/status/123?next=/home").tweet_id = "home" ∧
    (initRecord "https://x.com/alice/status/123?next=/home").tweet_id ≠ "123" := by
  refine ⟨⟨"https://x.com/", "alice", "123", "?next=/home",
    Or.inr (Or.inr (Or.inr rfl)), by decide, by decide, by decide, by decide,
    Or.inr ⟨"next=/home", rfl⟩, rfl⟩, by rfl, by decide⟩

/-- C5, claim theorem.  A key/value pair survives `clean_tweet_data`
exactly when its value is truthy or its key is `has_media`; surviving
pairs keep their original values (membership is preserved verbatim). -/
theorem c5_clean_membership (d : List (String × PyVal)) (k : String) (v : PyVal) :
    (k, v) ∈ clean_tweet_data d ↔
      ((k, v) ∈ d ∧ (pyTruthy v = true ∨ k = "has_media")) := by
  unfold clean_tweet_data
  rw [List.mem_filter]
  simp

/-- C5, witness: a truthy pair is kept, with its original value. -/
theorem c5_clean_membership_witness :
    (("text", PyVal.str "hi") ∈
        clean_tweet_data [("text", PyVal.str "hi"), ("created_at", PyVal.str "")]) ↔
      ((("text", PyVal.str "hi") ∈
          [("text", PyVal.str "hi"), ("created_at", PyVal.str "")]) ∧
       (pyTruthy (PyVal.str "hi") = true ∨ "text" = "has_media")) :=
  c5_clean_membership [("text", PyVal.str "hi"), ("created_at", PyVal.str "")]
    "text" (PyVal.str "hi")

/-- C6, claim theorem.  In JSON (array) mode the batch emits nothing
when no URL produced a record, the bare record object when exactly one
did, and an array of the records otherwise. -/
theorem c6_json_output (inputs : List (String × Env)) :
    (collectRecords inputs = [] → runJsonMode inputs = none) ∧
    (∀ r, collectRecords inputs = [r] → runJsonMode inputs = some (JsonOut.single r)) ∧
    (∀ r r2 rs, collectRecords inputs = r :: r2 :: rs →
      runJsonMode inputs = some (JsonOut.array (r :: r2 :: rs))) := by
  refine ⟨?_, ?_, ?_⟩
  · intro h
    unfold runJsonMode
    rw [h]
    rfl
  · intro r h
    unfold runJsonMode
    rw [h]
    rfl
  · intro r r2 rs h
    unfold runJsonMode
    rw [h]
    rfl

/-- C6, witness: a batch whose single URL yields a (placeholder) record
emits the bare object. -/
theorem c6_json_output_witness :
    runJsonMode [("https://x.com/bob/status/2", envNone)] =
      some (JsonOut.single
        [("text", PyVal.str (placeholderText "https://x.com/bob/status/2")),
         ("user_name", PyVal.str "bob"), ("screen_name", PyVal.str "bob"),
         ("tweet_id", PyVal.str "2"), ("url", PyVal.str "https://x.com/bob/status/2")]) :=
  (c6_json_output [("https://x.com/bob/status/2", envNone)]).2.1 _ rfl

/-- C7, claim theorem (amended).  A malformed URL among the inputs
yields no record and the rest of the batch is processed unaffected; the
exit code is 0 whenever at least one URL was supplied — even when the
malformed URL was the only input — and 1 only when no URLs were supplied
at all. -/
theorem c7_exit_code (env : Env) (badUrl : String) (prev post : List (String × Env))
    (hbad : validUrlL badUrl.data = false) :
    collectRecords (prev ++ (badUrl, env) :: post) =
      collectRecords prev ++ collectRecords post ∧
    mainExitCode (prev ++ (badUrl, env) :: post) = 0 ∧
    mainExitCode ([] : List (String × Env)) = 1 := by
  have hf : process_url env badUrl = none := by
    unfold process_url
    rw [show get_tweet_content env badUrl = Except.error "Invalid X/Twitter URL format" from by
      unfold get_tweet_content
      rw [if_neg (by simp [hbad])]]
  refine ⟨?_, ?_, rfl⟩
  · unfold collectRecords
    rw [List.filterMap_append, List.filterMap_cons]
    simp [hf]
  · unfold mainExitCode
    cases prev with
    | nil => rfl
    | cons a t => rfl

/-- C7, counterexample to the claim as stated: when the malformed URL
`https://example.com/post/1` is the only input, no record is emitted,
but the program's exit code is 0, not the claimed 1. -/
theorem c7_exit_code_counterexample :
    collectRecords [("https://example.com/post/1", envNone)] = [] ∧
    mainExitCode [("https://example.com/post/1", envNone)] = 0 ∧
    mainExitCode [("https://example.com/post/1", envNone)] ≠ 1 :=
  ⟨rfl, rfl, by decide⟩

/-- C7, witness: a batch of one valid and one malformed URL skips the
malformed one, keeps the valid one's record, and exits 0. -/
theorem c7_exit_code_witness :
    collectRecords ([("https://x.com/bob/status/3", envNone)] ++
        ("https://example.com/post/1", envNone) :: []) =
      collectRecords [("https://x.com/bob/status/3", envNone)] ++
        collectRecords ([] : List (String × Env)) ∧
    mainExitCode ([("https://x.com/bob/status/3", envNone)] ++
        ("https://example.com/post/1", envNone) :: []) = 0 ∧
    mainExitCode ([] : List (String × Env)) = 1 :=
  c7_exit_code envNone "https://example.com/post/1"
    [("https://x.com/bob/status/3", envNone)] [] (by decide)

/-- C8, claim theorem (amended).  In the direct-page strategy, `text` is
the description truncated before the first `" — "` whenever that marker
occurs anywhere in it; only when no `" — "` occurs is the description
truncated before `"pic.twitter.com/"`; with neither marker it is used
whole — the em-dash marker takes priority regardless of which marker
appears first. -/
theorem c8_description_priority (env : Env) (r : TweetRecord) (resp : PageResp)
    (d : String) (hp : env.page = some resp) (h200 : resp.status = 200)
    (hd : resp.page.og_description = some d) (hne : d ≠ "") :
    (method2 env r).1.text =
      (if listContains " — ".data d.data then
        pyStrip ⟨beforeFirst " — ".data d.data⟩
       else if listContains "pic.twitter.com/".data d.data then
        pyStrip ⟨beforeFirst "pic.twitter.com/".data d.data⟩
       else d) := by
  rw [method2_eq_200 env r resp hp h200]
  show (m2body resp.page r).text = _
  rw [m2body_text]
  unfold updDesc
  split
  next d2 heq =>
    rw [hd] at heq
    injection heq with heq
    subst heq
    rw [if_pos hne]
    split_ifs <;> rfl
  next heq => rw [hd] at heq; exact Option.noConfusion heq

def pageC8w : PageMeta :=
  { og_description := some "hello — Bob (@b) Jan", og_title := none, og_image := none
    time_datetime := none, published_time := none, ld_scripts := [] }

def envC8w : Env :=
  { oembed := none, page := some { status := 200, page := pageC8w }, embed := none
    getText := fun _ => "" }

/-- C8, witness: a description carrying the author suffix. -/
theorem c8_description_priority_witness :
    (method2 envC8w (initRecord "https://x.com/a/status/5")).1.text =
      (if listContains " — ".data "hello — Bob (@b) Jan".data then
        pyStrip ⟨beforeFirst " — ".data "hello — Bob (@b) Jan".data⟩
       else if listContains "pic.twitter.com/".data "hello — Bob (@b) Jan".data then
        pyStrip ⟨beforeFirst "pic.twitter.com/".data "hello — Bob (@b) Jan".data⟩
       else "hello — Bob (@b) Jan") :=
  c8_description_priority envC8w (initRecord "https://x.com/a/status/5")
    { status := 200, page := pageC8w } "hello — Bob (@b) Jan" rfl rfl rfl (by decide)

def pageC8cex : PageMeta :=
  { og_description := some "a pic.twitter.com/xy — B (@c) d", og_title := none
    og_image := none, time_datetime := none, published_time := none, ld_scripts := [] }

def envC8cex : Env :=
  { oembed := none, page := some { status := 200, page := pageC8cex }, embed := none
    getText := fun _ => "" }

/-- C8, counterexample to the claim as stated: in the description
`"a pic.twitter.com/xy — B (@c) d"` the media short-link marker appears
first (before the em-dash), so the claim requires `text = "a"`; but the
code checks the em-dash first and produces `"a pic.twitter.com/xy"`. -/
theorem c8_description_priority_counterexample :
    (method2 envC8cex (initRecord "https://x.com/a/status/5")).1.text =
      "a pic.twitter.com/xy" ∧
    pyStrip ⟨beforeFirst "pic.twitter.com/".data "a pic.twitter.com/xy — B (@c) d".data⟩ =
      "a" ∧
    ("a pic.twitter.com/xy" : String) ≠ "a" :=
  ⟨rfl, rfl, by decide⟩

def envC9 : Env :=
  { oembed := some { status := 200
                     json := some { html := some "<blockquote>Hello world</blockquote>"
                                    author_name := some "Alice" } }
    page := none, embed := none
    getText := fun _ => "Hello world — Alice (@alice) Jan 1, 2024" }

/-- C9, claim theorem.  End to end: for
`https://x.com/alice/status/123456`, when strategy 1's embed fragment
has visible text `"Hello world — Alice (@alice) Jan 1, 2024"` (and no
media short-link in the raw markup), the finalized record is exactly
the six claimed fields — `text` excludes the author/handle/date suffix
verbatim. -/
theorem c9_end_to_end :
    (get_tweet_content envC9 "https://x.com/alice/status/123456").map
        (fun r => clean_tweet_data (toDict r)) =
      Except.ok [("text", PyVal.str "Hello world"),
        ("created_at", PyVal.str "Jan 1, 2024"),
        ("user_name", PyVal.str "Alice"), ("screen_name", PyVal.str "alice"),
        ("tweet_id", PyVal.str "123456"),
        ("url", PyVal.str "https://x.com/alice/status/123456")] := rfl

/-- A `has_media` entry of the result dict can only come from the
record's `has_media` field, with its value. -/
theorem toDict_has_media (r : TweetRecord) (v : PyVal)
    (hmem : ("has_media", v) ∈ toDict r) :
    ∃ b, r.has_media = some b ∧ v = PyVal.bool b := by
  unfold toDict at hmem
  rw [List.mem_append, List.mem_append] at hmem
  rcases hmem with (hmem | hmem) | hmem
  · simp only [List.mem_cons, List.not_mem_nil, or_false] at hmem
    rcases hmem with h | h | h | h | h | h
    · exact absurd (congrArg Prod.fst h) (show ¬("has_media" : String) = "text" by decide)
    · exact absurd (congrArg Prod.fst h)
        (show ¬("has_media" : String) = "created_at" by decide)
    · exact absurd (congrArg Prod.fst h)
        (show ¬("has_media" : String) = "user_name" by decide)
    · exact absurd (congrArg Prod.fst h)
        (show ¬("has_media" : String) = "screen_name" by decide)
    · exact absurd (congrArg Prod.fst h)
        (show ¬("has_media" : String) = "tweet_id" by decide)
    · exact absurd (congrArg Prod.fst h) (show ¬("has_media" : String) = "url" by decide)
  · cases hhm : r.has_media with
    | none => rw [hhm] at hmem; simp at hmem
    | some b =>
      rw [hhm] at hmem
      simp only [List.mem_singleton] at hmem
      exact ⟨b, rfl, congrArg Prod.snd hmem⟩
  · cases hm : r.media with
    | none => rw [hm] at hmem; simp at hmem
    | some l =>
      rw [hm] at hmem
      simp only [List.mem_singleton] at hmem
      exact absurd (congrArg Prod.fst hmem)
        (show ¬("has_media" : String) = "media" by decide)

/-- C10, claim theorem.  `has_media` is only ever set to `True`: every
record extraction returns has it absent or `True`; strategies 2 and 3
never touch it; and any `has_media` entry of the finalized dict has
value `True`. -/
theorem c10_has_media_invariant :
    (∀ env url r, get_tweet_content env url = Except.ok r →
      r.has_media = none ∨ r.has_media = some true) ∧
    (∀ env r, (method2 env r).1.has_media = r.has_media) ∧
    (∀ env r, (method3 env r).1.has_media = r.has_media) ∧
    (∀ env url r v, get_tweet_content env url = Except.ok r →
      ("has_media", v) ∈ clean_tweet_data (toDict r) → v = PyVal.bool true) := by
  refine ⟨gtc_has_media, method2_has_media, method3_has_media, ?_⟩
  intro env url r v hok hmem
  have hmem2 : ("has_media", v) ∈ toDict r := (List.mem_filter.mp hmem).1
  obtain ⟨b, hb, hv⟩ := toDict_has_media r v hmem2
  rcases gtc_has_media env url r hok with h | h
  · rw [h] at hb
    exact Option.noConfusion hb
  · rw [h] at hb
    injection hb with hb
    rw [hv, ← hb]

/-- C10, witness: the placeholder record of a failed extraction has
`has_media` absent. -/
theorem c10_has_media_witness :
    ({ initRecord "https://x.com/bob/status/2" with
       text := placeholderText "https://x.com/bob/status/2" } : TweetRecord).has_media =
        none ∨
    ({ initRecord "https://x.com/bob/status/2" with
       text := placeholderText "https://x.com/bob/status/2" } : TweetRecord).has_media =
        some true :=
  c10_has_media_invariant.1 envNone "https://x.com/bob/status/2"
    { initRecord "https://x.com/bob/status/2" with
      text := placeholderText "https://x.com/bob/status/2" } (by rfl)

